import Mathlib

/-!
Verification of the Tucker3 tensor decomposition engine of vmmlib
(`include/vmmlib/tucker3_tensor.hpp`).

The dense containers (`tensor3`, `matrix`, `vector`), the LAPACK SVD wrapper
and the pseudo-inverse are external collaborators of this subsystem
(`tensor3.hpp`, `matrix.hpp`, `lapack_svd.hpp`, `matrix_pseudoinverse.hpp` are
not part of the sources under verification).  They are modelled here as
follows:

* a `matrix< R, C, T >` is a function `Fin R → Fin C → ℚ`, a
  `tensor3< A, B, C, T >` is a function `Fin A → Fin B → Fin C → ℚ`
  (the numeric element type `T` is modelled by `ℚ`);
* the SVD and pseudo-inverse collaborators are oracle parameters, constrained
  only by their interface contracts (an SVD call either succeeds and yields
  the overwritten input matrix, or fails; a pseudo-inverse call always yields
  a matrix of the same shape);
* the container operations the engine calls (`full_tensor3_matrix_multiplication`,
  the three matricizations, `get_sub_matrix`, the Frobenius norm) are modelled
  from the spec where stated; the Frobenius norm is kept as an oracle field
  because only its values at specific arguments matter to the engine's control
  flow.
-/

namespace Vmml

/-- A `matrix< r, c, T >` of the external container library: `r × c` rational
entries, addressed `(row, column)`. -/
abbrev Mat (r c : ℕ) : Type := Fin r → Fin c → ℚ

/-- A `tensor3< a, b, c, T >` of the external container library. -/
abbrev T3 (a b c : ℕ) : Type := Fin a → Fin b → Fin c → ℚ

/-- The all-zero matrix (`matrix::zero()`). -/
def matZero {r c : ℕ} : Mat r c := fun _ _ => 0

/-- The all-zero third-order tensor (`tensor3::zero()`). -/
def t3Zero {a b c : ℕ} : T3 a b c := fun _ _ _ => 0

/-- Matrix transpose (`vmml::transpose`). -/
def transposeM {r c : ℕ} (m : Mat r c) : Mat c r := fun i j => m j i

/-- Modelled from the spec: the 1-mode product `X ×₁ U` ("multiplying a
multi-dimensional array by a matrix along one specific axis"); this is the
container operation `tensor3::multiply_lateral`. -/
def mode1Product {a b c r : ℕ} (t : T3 a b c) (u : Mat r a) : T3 r b c :=
  fun i j k => ∑ x : Fin a, u i x * t x j k

/-- Modelled from the spec: the 2-mode product `X ×₂ U`
(`tensor3::multiply_frontal`). -/
def mode2Product {a b c r : ℕ} (t : T3 a b c) (u : Mat r b) : T3 a r c :=
  fun i j k => ∑ x : Fin b, u j x * t i x k

/-- Modelled from the spec: the 3-mode product `X ×₃ U`
(`tensor3::multiply_horizontal`). -/
def mode3Product {a b c r : ℕ} (t : T3 a b c) (u : Mat r c) : T3 a b r :=
  fun i j k => ∑ x : Fin c, u k x * t i j x

/-- Modelled from the spec: `tensor3::full_tensor3_matrix_multiplication`,
"the inverse operation (..) takes a core array and three basis matrices and
produces the reconstructed Dense3DArray via successive n-mode products along
each axis in turn". -/
def fullTensor3MatrixMultiplication {j1 j2 j3 i1 i2 i3 : ℕ}
    (core : T3 j1 j2 j3) (U1 : Mat i1 j1) (U2 : Mat i2 j2) (U3 : Mat i3 j3) :
    T3 i1 i2 i3 :=
  mode3Product (mode2Product (mode1Product core U1) U2) U3

/-- Modelled from the spec: the mode-1 unfolding
(`tensor3::lateral_matricization`), a matrix of shape `(a, b·c)`; the
linearization order of the combined column index is arbitrary but fixed. -/
def lateralMatricization {a b c : ℕ} (t : T3 a b c) : Mat a (b * c) :=
  fun i p => t i (finProdFinEquiv.symm p).1 (finProdFinEquiv.symm p).2

/-- Modelled from the spec: the mode-2 unfolding
(`tensor3::frontal_matricization`), a matrix of shape `(b, a·c)`. -/
def frontalMatricization {a b c : ℕ} (t : T3 a b c) : Mat b (a * c) :=
  fun j p => t (finProdFinEquiv.symm p).1 j (finProdFinEquiv.symm p).2

/-- Modelled from the spec: the mode-3 unfolding
(`tensor3::horizontal_matricization`), a matrix of shape `(c, a·b)`. -/
def horizontalMatricization {a b c : ℕ} (t : T3 a b c) : Mat c (a * b) :=
  fun k p => t (finProdFinEquiv.symm p).1 (finProdFinEquiv.symm p).2 k

/-- Modelled from the spec: `matrix::get_sub_matrix` as used by the basis
extractor: keep the first `j` columns ("truncates to the top `rank`
left-singular vectors"); columns beyond the source width never arise in
legitimate calls and are padded with `0` to keep the function total. -/
def getSubMatrix {r n : ℕ} (j : ℕ) (m : Mat r n) : Mat r j :=
  fun i q => if h : q.val < n then m i ⟨q.val, h⟩ else 0

/-- The state of a `tucker3_tensor< J1, J2, J3, I1, I2, I3, T >`: the core
tensor `_core` and the three basis matrices `_u1`, `_u2`, `_u3`. -/
structure Tucker (J1 J2 J3 I1 I2 I3 : ℕ) where
  core : T3 J1 J2 J3
  u1 : Mat I1 J1
  u2 : Mat I2 J2
  u3 : Mat I3 J3

theorem Tucker.ext {J1 J2 J3 I1 I2 I3 : ℕ} {s t : Tucker J1 J2 J3 I1 I2 I3}
    (hc : s.core = t.core) (h1 : s.u1 = t.u1) (h2 : s.u2 = t.u2)
    (h3 : s.u3 = t.u3) : s = t := by
  cases s; cases t; simp_all

/-- The external collaborators of `tucker3_tensor`, one oracle per call
shape.  `svd1`–`svd3` are the `lapack_svd::compute_and_overwrite_input`
instances invoked by `hosvd` on the full data's matricizations; `svd1p`–`svd3p`
are the instances invoked inside the `hoii` loop on the per-mode projections'
matricizations; `pinv1`–`pinv3` are the `compute_pseudoinverse` instances for
the three basis shapes; `fnorm` is the container's `frobenius_norm` on the
data shape. -/
structure Oracles (J1 J2 J3 I1 I2 I3 : ℕ) where
  svd1 : Mat I1 (I2 * I3) → Option (Mat I1 (I2 * I3))
  svd2 : Mat I2 (I1 * I3) → Option (Mat I2 (I1 * I3))
  svd3 : Mat I3 (I1 * I2) → Option (Mat I3 (I1 * I2))
  svd1p : Mat I1 (J2 * J3) → Option (Mat I1 (J2 * J3))
  svd2p : Mat I2 (J1 * J3) → Option (Mat I2 (J1 * J3))
  svd3p : Mat I3 (J1 * J2) → Option (Mat I3 (J1 * J2))
  pinv1 : Mat I1 J1 → Mat I1 J1
  pinv2 : Mat I2 J2 → Mat I2 J2
  pinv3 : Mat I3 J3 → Mat I3 J3
  fnorm : T3 I1 I2 I3 → ℚ

/-- `hosvd_mode1` (generic over the input shape, as the source calls it both
on the full data and on the mode-1 projection): matricize along mode 1, run
the SVD; on success keep the first `j` columns of the overwritten input
(`get_sub_matrix`), on failure zero the output (`U1_.zero()`). -/
def hosvd_mode1 {a b c j : ℕ} (svd : Mat a (b * c) → Option (Mat a (b * c)))
    (t : T3 a b c) : Mat a j :=
  match svd (lateralMatricization t) with
  | some m => getSubMatrix j m
  | none => matZero

/-- `hosvd_mode2`: as `hosvd_mode1`, along mode 2. -/
def hosvd_mode2 {a b c j : ℕ} (svd : Mat b (a * c) → Option (Mat b (a * c)))
    (t : T3 a b c) : Mat b j :=
  match svd (frontalMatricization t) with
  | some m => getSubMatrix j m
  | none => matZero

/-- `hosvd_mode3`: as `hosvd_mode1`, along mode 3. -/
def hosvd_mode3 {a b c j : ℕ} (svd : Mat c (a * b) → Option (Mat c (a * b)))
    (t : T3 a b c) : Mat c j :=
  match svd (horizontalMatricization t) with
  | some m => getSubMatrix j m
  | none => matZero

variable {J1 J2 J3 I1 I2 I3 : ℕ}

/-- `tucker3_tensor::reconstruction`: the full n-mode product of the stored
core with the three stored bases. -/
def reconstruction (s : Tucker J1 J2 J3 I1 I2 I3) : T3 I1 I2 I3 :=
  fullTensor3MatrixMultiplication s.core s.u1 s.u2 s.u3

/-- `tucker3_tensor::derive_core_orthogonal_bases`: project the data by the
plain transposes of the bases (no pseudo-inverse). -/
def derive_core_orthogonal_bases (data : T3 I1 I2 I3)
    (U1 : Mat I1 J1) (U2 : Mat I2 J2) (U3 : Mat I3 J3) : T3 J1 J2 J3 :=
  fullTensor3MatrixMultiplication data (transposeM U1) (transposeM U2) (transposeM U3)

/-- `tucker3_tensor::derive_core`: the general path, projecting by the
transposed pseudo-inverses of the bases. -/
def derive_core (O : Oracles J1 J2 J3 I1 I2 I3) (data : T3 I1 I2 I3)
    (U1 : Mat I1 J1) (U2 : Mat I2 J2) (U3 : Mat I3 J3) : T3 J1 J2 J3 :=
  fullTensor3MatrixMultiplication data
    (transposeM (O.pinv1 U1)) (transposeM (O.pinv2 U2)) (transposeM (O.pinv3 U3))

/-- `tucker3_tensor::hosvd`: overwrite all three bases with the per-mode SVD
extractions from the data; the core is untouched. -/
def hosvd (O : Oracles J1 J2 J3 I1 I2 I3) (data : T3 I1 I2 I3)
    (s : Tucker J1 J2 J3 I1 I2 I3) : Tucker J1 J2 J3 I1 I2 I3 :=
  { s with
    u1 := hosvd_mode1 O.svd1 data
    u2 := hosvd_mode2 O.svd2 data
    u3 := hosvd_mode3 O.svd3 data }

/-- `tucker3_tensor::optimize_mode1`: project the data onto the transposed
pseudo-inverses of the mode-2 and mode-3 bases. -/
def optimize_mode1 (O : Oracles J1 J2 J3 I1 I2 I3) (data : T3 I1 I2 I3)
    (U2 : Mat I2 J2) (U3 : Mat I3 J3) : T3 I1 J2 J3 :=
  mode3Product (mode2Product data (transposeM (O.pinv2 U2))) (transposeM (O.pinv3 U3))

/-- `tucker3_tensor::optimize_mode2`: project the data onto the transposed
pseudo-inverses of the mode-1 and mode-3 bases. -/
def optimize_mode2 (O : Oracles J1 J2 J3 I1 I2 I3) (data : T3 I1 I2 I3)
    (U1 : Mat I1 J1) (U3 : Mat I3 J3) : T3 J1 I2 J3 :=
  mode3Product (mode1Product data (transposeM (O.pinv1 U1))) (transposeM (O.pinv3 U3))

/-- `tucker3_tensor::optimize_mode3`: project the data onto the transposed
pseudo-inverses of the mode-1 and mode-2 bases. -/
def optimize_mode3 (O : Oracles J1 J2 J3 I1 I2 I3) (data : T3 I1 I2 I3)
    (U1 : Mat I1 J1) (U2 : Mat I2 J2) : T3 J1 J2 I3 :=
  mode2Product (mode1Product data (transposeM (O.pinv1 U1))) (transposeM (O.pinv2 U2))

/-- `min_improvement` of `hoii`. -/
def minImprovement : ℚ := 1 / 10

/-- `max_iterations` of `hoii`. -/
def maxIterations : ℕ := 3

/-- One execution of the `hoii` while-loop's body: refine the three bases in
order (mode 2's optimization consumes mode 1's just-updated basis), then
re-derive the core via the orthogonal-bases path. -/
def hoiiBody (O : Oracles J1 J2 J3 I1 I2 I3) (data : T3 I1 I2 I3)
    (s : Tucker J1 J2 J3 I1 I2 I3) : Tucker J1 J2 J3 I1 I2 I3 :=
  let u1n : Mat I1 J1 := hosvd_mode1 O.svd1p (optimize_mode1 O data s.u2 s.u3)
  let u2n : Mat I2 J2 := hosvd_mode2 O.svd2p (optimize_mode2 O data u1n s.u3)
  let u3n : Mat I3 J3 := hosvd_mode3 O.svd3p (optimize_mode3 O data u1n u2n)
  { core := derive_core_orthogonal_bases data u1n u2n u3n
    u1 := u1n, u2 := u2n, u3 := u3n }

/-- The `hoii` while-loop (`while improvement > min_improvement && i <
max_iterations`), with the remaining iteration budget as fuel; returns the
final state together with the number of body executions. -/
def hoiiLoop (O : Oracles J1 J2 J3 I1 I2 I3) (data : T3 I1 I2 I3) :
    ℕ → ℚ → ℚ → Tucker J1 J2 J3 I1 I2 I3 → Tucker J1 J2 J3 I1 I2 I3 × ℕ
  | 0, _, _, s => (s, 0)
  | fuel + 1, improvement, lastFNorm, s =>
    if improvement > minImprovement then
      let s2 := hoiiBody O data s
      let f := O.fnorm (reconstruction s2)
      let r := hoiiLoop O data fuel (f - lastFNorm) f s2
      (r.1, r.2 + 1)
    else (s, 0)

/-- `tucker3_tensor::hoii` instrumented with the loop's iteration counter
`i`: seed the bases via `hosvd`, seed the convergence test from the first
reconstruction's Frobenius norm, run the bounded loop, then one final
orthogonal-bases core derivation. -/
def hoiiAux (O : Oracles J1 J2 J3 I1 I2 I3) (data : T3 I1 I2 I3)
    (s : Tucker J1 J2 J3 I1 I2 I3) : Tucker J1 J2 J3 I1 I2 I3 × ℕ :=
  let s1 := hosvd O data s
  let fNorm := O.fnorm (reconstruction s1)
  let maxFNorm := O.fnorm data
  let r := hoiiLoop O data maxIterations (maxFNorm - fNorm) fNorm s1
  ({ r.1 with core := derive_core_orthogonal_bases data r.1.u1 r.1.u2 r.1.u3 }, r.2)

/-- `tucker3_tensor::hoii`. -/
def hoii (O : Oracles J1 J2 J3 I1 I2 I3) (data : T3 I1 I2 I3)
    (s : Tucker J1 J2 J3 I1 I2 I3) : Tucker J1 J2 J3 I1 I2 I3 :=
  (hoiiAux O data s).1

/-- The number of times `hoii`'s while-loop body runs. -/
def hoiiIterations (O : Oracles J1 J2 J3 I1 I2 I3) (data : T3 I1 I2 I3)
    (s : Tucker J1 J2 J3 I1 I2 I3) : ℕ :=
  (hoiiAux O data s).2

/-- `tucker3_tensor::tucker_als`: `hoii` followed by a final
orthogonal-bases core derivation. -/
def tucker_als (O : Oracles J1 J2 J3 I1 I2 I3) (data : T3 I1 I2 I3)
    (s : Tucker J1 J2 J3 I1 I2 I3) : Tucker J1 J2 J3 I1 I2 I3 :=
  let h := hoii O data s
  { h with core := derive_core_orthogonal_bases data h.u1 h.u2 h.u3 }

/-- `tucker3_tensor::decomposition`: the public entry point; delegates to
`tucker_als`. -/
def decomposition (O : Oracles J1 J2 J3 I1 I2 I3) (data : T3 I1 I2 I3)
    (s : Tucker J1 J2 J3 I1 I2 I3) : Tucker J1 J2 J3 I1 I2 I3 :=
  tucker_als O data s

/-- Total row access into a `K × J` matrix at a natural row index: rows past
the extent read as `0` (legitimate calls stay in bounds; the guard keeps the
embedding total where the C++ access would be out of bounds). -/
def rowGet {K J : ℕ} (u : Mat K J) (n : ℕ) : Fin J → ℚ :=
  fun j => if h : n < K then u ⟨n, h⟩ j else 0

/-- `tucker3_tensor::reduce_ranks` (source ranks `K1 K2 K3`, target ranks
`J1 J2 J3`, shared extents): copy the first `J_k` columns of each basis of
`other` and the leading `J1×J2×J3` block of its core; positions whose source
access would be out of bounds (only reachable when the `J_k ≤ K_k` asserts
are violated) keep the pre-call state. -/
def reduce_ranks {K1 K2 K3 : ℕ} (other : Tucker K1 K2 K3 I1 I2 I3)
    (s : Tucker J1 J2 J3 I1 I2 I3) : Tucker J1 J2 J3 I1 I2 I3 where
  u1 := fun i j => if h : j.val < K1 then other.u1 i ⟨j.val, h⟩ else s.u1 i j
  u2 := fun i j => if h : j.val < K2 then other.u2 i ⟨j.val, h⟩ else s.u2 i j
  u3 := fun i j => if h : j.val < K3 then other.u3 i ⟨j.val, h⟩ else s.u3 i j
  core := fun x y z =>
    if h : x.val < K1 ∧ y.val < K2 ∧ z.val < K3 then
      other.core ⟨x.val, h.1⟩ ⟨y.val, h.2.1⟩ ⟨z.val, h.2.2⟩
    else s.core x y z

/-- The three `assert` statements at the entry of
`tucker3_tensor::subsampling`, exactly as written in the source:
`assert(I1 <= K1); assert(I1 <= K2); assert(I1 <= K3);` — note that only the
first target extent `I1` is ever read. -/
def subsamplingAsserts (I1 K1 K2 K3 : ℕ) : Bool :=
  decide (I1 ≤ K1) && decide (I1 ≤ K2) && decide (I1 ≤ K3)

/-- The `assert` statements at the entry of
`tucker3_tensor::subsampling_on_average` (identical to `subsampling`'s). -/
def subsamplingOnAverageAsserts (I1 K1 K2 K3 : ℕ) : Bool :=
  decide (I1 ≤ K1) && decide (I1 ≤ K2) && decide (I1 ≤ K3)

/-- The `assert` statements at the entry of
`tucker3_tensor::region_of_interest`: the same three `I1`-only extent checks,
followed by the per-mode index-range checks. -/
def regionOfInterestAsserts (I1 K1 K2 K3 s1 e1 s2 e2 s3 e3 : ℕ) : Bool :=
  decide (I1 ≤ K1) && decide (I1 ≤ K2) && decide (I1 ≤ K3) &&
  decide (s1 < e1) && decide (s2 < e2) && decide (s3 < e3) &&
  decide (e1 < K1) && decide (e2 < K2) && decide (e3 < K3)

/-- The per-mode extent precondition as the spec states it: "for every mode k
the target extent I_k does not exceed the corresponding source extent K_k"
(this definition follows the spec's words, for comparison with the asserts
actually found in the source). -/
def specExtentPrecondition (I1 I2 I3 K1 K2 K3 : ℕ) : Bool :=
  decide (I1 ≤ K1) && decide (I2 ≤ K2) && decide (I3 ≤ K3)

/-- `tucker3_tensor::subsampling` (source extents `K1 K2 K3`, target extents
`I1 I2 I3`, shared ranks): stride each basis's rows at `factor`; the core is
copied unchanged.  Target rows the loop never reaches keep the pre-call
state. -/
def subsampling {K1 K2 K3 : ℕ} (other : Tucker J1 J2 J3 K1 K2 K3)
    (factor : ℕ) (s : Tucker J1 J2 J3 I1 I2 I3) : Tucker J1 J2 J3 I1 I2 I3 where
  u1 := fun i j => if i.val * factor < K1 then rowGet other.u1 (i.val * factor) j else s.u1 i j
  u2 := fun i j => if i.val * factor < K2 then rowGet other.u2 (i.val * factor) j else s.u2 i j
  u3 := fun i j => if i.val * factor < K3 then rowGet other.u3 (i.val * factor) j else s.u3 i j
  core := other.core

/-- The averaged row computed into `tmp_row` by
`tucker3_tensor::subsampling_on_average`: starting from source row `i1`, sum
the rows `i1, i1+1, …` while the index stays below both `i1 + factor` and the
source extent `K`, then divide by the number of rows accumulated
(`num_items_averaged`). -/
def blockAverageRow {K J : ℕ} (u : Mat K J) (factor i1 : ℕ) : Fin J → ℚ :=
  fun j =>
    let cnt := min (i1 + factor) K - i1
    (((List.range cnt).map fun d => rowGet u (i1 + d) j).sum) / (cnt : ℚ)

/-- `tucker3_tensor::subsampling_on_average`, exactly as the source executes
it: mode 1 writes the averaged `tmp_row` into the target, while modes 2 and 3
compute `tmp_row` but then write the unaveraged source row (`u2.get_row(i2)`,
`u3.get_row(i3)`); the core is copied unchanged. -/
def subsampling_on_average {K1 K2 K3 : ℕ} (other : Tucker J1 J2 J3 K1 K2 K3)
    (factor : ℕ) (s : Tucker J1 J2 J3 I1 I2 I3) : Tucker J1 J2 J3 I1 I2 I3 where
  u1 := fun i j =>
    if i.val * factor < K1 then blockAverageRow other.u1 factor (i.val * factor) j
    else s.u1 i j
  u2 := fun i j =>
    if i.val * factor < K2 then rowGet other.u2 (i.val * factor) j
    else s.u2 i j
  u3 := fun i j =>
    if i.val * factor < K3 then rowGet other.u3 (i.val * factor) j
    else s.u3 i j
  core := other.core

/-- `tucker3_tensor::region_of_interest` (row window per mode): target row
`i` of basis `k` receives source row `start_k + i` while that stays below
`end_k`; the core is copied unchanged. -/
def region_of_interest {K1 K2 K3 : ℕ} (other : Tucker J1 J2 J3 K1 K2 K3)
    (s1 e1 s2 e2 s3 e3 : ℕ) (s : Tucker J1 J2 J3 I1 I2 I3) :
    Tucker J1 J2 J3 I1 I2 I3 where
  u1 := fun i j => if s1 + i.val < e1 then rowGet other.u1 (s1 + i.val) j else s.u1 i j
  u2 := fun i j => if s2 + i.val < e2 then rowGet other.u2 (s2 + i.val) j else s.u2 i j
  u3 := fun i j => if s3 + i.val < e3 then rowGet other.u3 (s3 + i.val) j else s.u3 i j
  core := other.core

/-- Total element access into a matrix at natural indices, `0` out of
bounds. -/
def matGetD {r c : ℕ} (m : Mat r c) (i j : ℕ) : ℚ :=
  if h : i < r ∧ j < c then m ⟨i, h.1⟩ ⟨j, h.2⟩ else 0

/-- Total element access into a third-order tensor at natural indices. -/
def t3GetD {a b c : ℕ} (t : T3 a b c) (i j k : ℕ) : ℚ :=
  if h : i < a ∧ j < b ∧ k < c then t ⟨i, h.1⟩ ⟨j, h.2.1⟩ ⟨k, h.2.2⟩ else 0

/-- Modelled from the spec: a matrix's elements in the container's natural
(column-major) iteration order — position `p` holds entry
`(row p % r, column p / r)`. -/
def matToList {r c : ℕ} (m : Mat r c) : List ℚ :=
  (List.range (c * r)).map fun p => matGetD m (p % r) (p / r)

/-- Modelled from the spec and `tensor3_iterator.hpp`: a tensor3's elements
in natural order — frontal slice by frontal slice (third index outermost),
each slice in the matrix's column-major order. -/
def t3ToList {a b c : ℕ} (t : T3 a b c) : List ℚ :=
  (List.range (c * (b * a))).map fun p =>
    t3GetD t (p % (b * a) % a) (p % (b * a) / a) (p / (b * a))

/-- `tucker3_tensor::export_to`: push every element of `_u1`, then `_u2`,
then `_u3`, then `_core`, each in its container's natural iteration order,
onto the back of the supplied vector. -/
def export_to (s : Tucker J1 J2 J3 I1 I2 I3) (v : List ℚ) : List ℚ :=
  v ++ matToList s.u1 ++ matToList s.u2 ++ matToList s.u3 ++ t3ToList s.core

/-- `export_to` is a `const` member of `tucker3_tensor`: paired with the
(unchanged) model state. -/
def exportToState (s : Tucker J1 J2 J3 I1 I2 I3) (v : List ℚ) :
    Tucker J1 J2 J3 I1 I2 I3 × List ℚ :=
  (s, export_to s v)

/-- The number of elements `export_to` emits / `import_from` consumes. -/
def exportLength (J1 J2 J3 I1 I2 I3 : ℕ) : ℕ :=
  J1 * I1 + J2 * I2 + J3 * I3 + J3 * (J2 * J1)

/-- `tucker3_tensor::import_from`: consume the flat sequence in the same
fixed order (`_u1`, `_u2`, `_u3`, `_core`, each in natural iteration order),
reading `data_.at(i)` with a running index; a sequence shorter than the
required length makes `std::vector::at` throw, modelled by `none`. -/
def import_from (s : Tucker J1 J2 J3 I1 I2 I3) (v : List ℚ) :
    Option (Tucker J1 J2 J3 I1 I2 I3) :=
  if exportLength J1 J2 J3 I1 I2 I3 ≤ v.length then
    some
      { u1 := fun i j => v.getD (j.val * I1 + i.val) 0
        u2 := fun i j => v.getD (J1 * I1 + (j.val * I2 + i.val)) 0
        u3 := fun i j => v.getD (J1 * I1 + J2 * I2 + (j.val * I3 + i.val)) 0
        core := fun x y z =>
          v.getD (J1 * I1 + J2 * I2 + J3 * I3 +
            (z.val * (J2 * J1) + (y.val * J1 + x.val))) 0 }
  else none

/-! ## Theorems -/

/-- The loop body count returned by `hoiiLoop` never exceeds the fuel. -/
theorem hoiiLoop_count_le_fuel (O : Oracles J1 J2 J3 I1 I2 I3)
    (data : T3 I1 I2 I3) :
    ∀ (fuel : ℕ) (imp lastF : ℚ) (s : Tucker J1 J2 J3 I1 I2 I3),
      (hoiiLoop O data fuel imp lastF s).2 ≤ fuel := by
  intro fuel
  induction fuel with
  | zero => intro imp lastF s; simp [hoiiLoop]
  | succ n ih =>
    intro imp lastF s
    by_cases h : imp > minImprovement
    · simp only [hoiiLoop, if_pos h]
      exact Nat.succ_le_succ (ih _ _ _)
    · simp [hoiiLoop, if_neg h]

/-- C1: `decomposition(data)` runs `hoii(data)` and then derives the final
core via `derive_core_orthogonal_bases`; the stored core after
`decomposition` equals the data multiplied by the transpose of each final
basis matrix via n-mode products, with no pseudo-inverse oracle involved in
this final step. -/
theorem decomposition_final_core_via_orthogonal_bases
    (O : Oracles J1 J2 J3 I1 I2 I3) (data : T3 I1 I2 I3)
    (s : Tucker J1 J2 J3 I1 I2 I3) :
    decomposition O data s =
      { hoii O data s with
        core := derive_core_orthogonal_bases data (hoii O data s).u1
                  (hoii O data s).u2 (hoii O data s).u3 } ∧
    (decomposition O data s).core =
      fullTensor3MatrixMultiplication data
        (transposeM (decomposition O data s).u1)
        (transposeM (decomposition O data s).u2)
        (transposeM (decomposition O data s).u3) := by
  constructor
  · rfl
  · rfl

/-- C2: the `hoii` while-loop body runs at most `max_iterations = 3` times;
whenever the current improvement is at most `min_improvement = 0.1` the loop
exits immediately, returning the state unchanged with zero further body
executions; and a continuing step recomputes the improvement as the new
reconstruction Frobenius norm minus the previous one.  Termination is by
construction: the loop consumes fuel bounded by the iteration cap. -/
theorem hoii_iteration_cap_and_early_exit (O : Oracles J1 J2 J3 I1 I2 I3)
    (data : T3 I1 I2 I3) (s : Tucker J1 J2 J3 I1 I2 I3) :
    hoiiIterations O data s ≤ 3 ∧
    (∀ (fuel : ℕ) (imp lastF : ℚ) (t : Tucker J1 J2 J3 I1 I2 I3),
      imp ≤ minImprovement → hoiiLoop O data fuel imp lastF t = (t, 0)) ∧
    (∀ (fuel : ℕ) (imp lastF : ℚ) (t : Tucker J1 J2 J3 I1 I2 I3),
      imp > minImprovement →
        hoiiLoop O data (fuel + 1) imp lastF t =
          ((hoiiLoop O data fuel
              (O.fnorm (reconstruction (hoiiBody O data t)) - lastF)
              (O.fnorm (reconstruction (hoiiBody O data t)))
              (hoiiBody O data t)).1,
           (hoiiLoop O data fuel
              (O.fnorm (reconstruction (hoiiBody O data t)) - lastF)
              (O.fnorm (reconstruction (hoiiBody O data t)))
              (hoiiBody O data t)).2 + 1)) := by
  refine ⟨?_, ?_, ?_⟩
  · have h := hoiiLoop_count_le_fuel O data maxIterations
      (O.fnorm data - O.fnorm (reconstruction (hosvd O data s)))
      (O.fnorm (reconstruction (hosvd O data s))) (hosvd O data s)
    simpa [hoiiIterations, hoiiAux, maxIterations] using h
  · intro fuel imp lastF t h
    cases fuel with
    | zero => rfl
    | succ n => simp [hoiiLoop, not_lt.mpr h]
  · intro fuel imp lastF t h
    simp [hoiiLoop, if_pos h]

/-- A trivial oracle assignment at all-`1` shapes: every SVD call fails,
pseudo-inverses are the identity, the norm is constantly `0`. -/
def trivOracle : Oracles 1 1 1 1 1 1 where
  svd1 := fun _ => none
  svd2 := fun _ => none
  svd3 := fun _ => none
  svd1p := fun _ => none
  svd2p := fun _ => none
  svd3p := fun _ => none
  pinv1 := id
  pinv2 := id
  pinv3 := id
  fnorm := fun _ => 0

/-- The all-zero `1×1×1` Tucker model. -/
def zeroModel : Tucker 1 1 1 1 1 1 :=
  { core := t3Zero, u1 := matZero, u2 := matZero, u3 := matZero }

/-- Witness for C2 at a concrete instance. -/
theorem hoii_iteration_cap_and_early_exit_witness :
    hoiiIterations trivOracle t3Zero zeroModel ≤ 3 ∧
    hoiiLoop trivOracle t3Zero 3 0 0 zeroModel = (zeroModel, 0) ∧
    hoiiLoop trivOracle t3Zero 1 1 0 zeroModel =
      ((hoiiLoop trivOracle t3Zero 0
          (trivOracle.fnorm (reconstruction (hoiiBody trivOracle t3Zero zeroModel)) - 0)
          (trivOracle.fnorm (reconstruction (hoiiBody trivOracle t3Zero zeroModel)))
          (hoiiBody trivOracle t3Zero zeroModel)).1,
       (hoiiLoop trivOracle t3Zero 0
          (trivOracle.fnorm (reconstruction (hoiiBody trivOracle t3Zero zeroModel)) - 0)
          (trivOracle.fnorm (reconstruction (hoiiBody trivOracle t3Zero zeroModel)))
          (hoiiBody trivOracle t3Zero zeroModel)).2 + 1) :=
  ⟨(hoii_iteration_cap_and_early_exit trivOracle t3Zero zeroModel).1,
   (hoii_iteration_cap_and_early_exit trivOracle t3Zero zeroModel).2.1 3 0 0
      zeroModel (by norm_num [minImprovement]),
   (hoii_iteration_cap_and_early_exit trivOracle t3Zero zeroModel).2.2 0 1 0
      zeroModel (by norm_num [minImprovement])⟩

/-- C6: for each mode, when the SVD collaborator reports failure the basis
extractor returns the zero matrix of the expected shape (a defined fallback,
not a thrown failure — the extractor is a total function); when the SVD
succeeds the output is the truncation of the overwritten matricization to its
first `j` columns. -/
theorem hosvd_mode_svd_failure_zero_fallback {a b c j : ℕ}
    (svdA : Mat a (b * c) → Option (Mat a (b * c)))
    (svdB : Mat b (a * c) → Option (Mat b (a * c)))
    (svdC : Mat c (a * b) → Option (Mat c (a * b)))
    (t : T3 a b c) :
    (svdA (lateralMatricization t) = none → hosvd_mode1 (j := j) svdA t = matZero) ∧
    (∀ m, svdA (lateralMatricization t) = some m →
      hosvd_mode1 (j := j) svdA t = getSubMatrix j m) ∧
    (svdB (frontalMatricization t) = none → hosvd_mode2 (j := j) svdB t = matZero) ∧
    (∀ m, svdB (frontalMatricization t) = some m →
      hosvd_mode2 (j := j) svdB t = getSubMatrix j m) ∧
    (svdC (horizontalMatricization t) = none → hosvd_mode3 (j := j) svdC t = matZero) ∧
    (∀ m, svdC (horizontalMatricization t) = some m →
      hosvd_mode3 (j := j) svdC t = getSubMatrix j m) := by
  refine ⟨?_, ?_, ?_, ?_, ?_, ?_⟩ <;>
    first
      | (intro h; simp [hosvd_mode1, hosvd_mode2, hosvd_mode3, h])
      | (intro m h; simp [hosvd_mode1, hosvd_mode2, hosvd_mode3, h])

/-- Witness for C6: a failing and a succeeding SVD oracle at shape `1`. -/
theorem hosvd_mode_svd_failure_zero_fallback_witness :
    (hosvd_mode1 (j := 1) (fun _ => none) (t3Zero : T3 1 1 1) = matZero) ∧
    (hosvd_mode1 (j := 1) some (t3Zero : T3 1 1 1)
        = getSubMatrix 1 (lateralMatricization (t3Zero : T3 1 1 1))) ∧
    (hosvd_mode2 (j := 1) (fun _ => none) (t3Zero : T3 1 1 1) = matZero) ∧
    (hosvd_mode2 (j := 1) some (t3Zero : T3 1 1 1)
        = getSubMatrix 1 (frontalMatricization (t3Zero : T3 1 1 1))) ∧
    (hosvd_mode3 (j := 1) (fun _ => none) (t3Zero : T3 1 1 1) = matZero) ∧
    (hosvd_mode3 (j := 1) some (t3Zero : T3 1 1 1)
        = getSubMatrix 1 (horizontalMatricization (t3Zero : T3 1 1 1))) :=
  ⟨(hosvd_mode_svd_failure_zero_fallback (j := 1) (fun _ => none) (fun _ => none)
      (fun _ => none) (t3Zero : T3 1 1 1)).1 rfl,
   (hosvd_mode_svd_failure_zero_fallback (j := 1) some some some
      (t3Zero : T3 1 1 1)).2.1 _ rfl,
   (hosvd_mode_svd_failure_zero_fallback (j := 1) (fun _ => none) (fun _ => none)
      (fun _ => none) (t3Zero : T3 1 1 1)).2.2.1 rfl,
   (hosvd_mode_svd_failure_zero_fallback (j := 1) some some some
      (t3Zero : T3 1 1 1)).2.2.2.1 _ rfl,
   (hosvd_mode_svd_failure_zero_fallback (j := 1) (fun _ => none) (fun _ => none)
      (fun _ => none) (t3Zero : T3 1 1 1)).2.2.2.2.1 rfl,
   (hosvd_mode_svd_failure_zero_fallback (j := 1) some some some
      (t3Zero : T3 1 1 1)).2.2.2.2.2 _ rfl⟩

/-- C4: under the per-mode rank preconditions `J_k ≤ K_k`, `reduce_ranks`
sets each target basis to exactly the first `J_k` columns of the source basis
and the target core to exactly the leading `J1×J2×J3` sub-block of the source
core, element for element. -/
theorem reduce_ranks_exact_truncation {K1 K2 K3 : ℕ}
    (other : Tucker K1 K2 K3 I1 I2 I3) (s : Tucker J1 J2 J3 I1 I2 I3)
    (h1 : J1 ≤ K1) (h2 : J2 ≤ K2) (h3 : J3 ≤ K3) :
    (reduce_ranks other s).u1 = (fun i j => other.u1 i (Fin.castLE h1 j)) ∧
    (reduce_ranks other s).u2 = (fun i j => other.u2 i (Fin.castLE h2 j)) ∧
    (reduce_ranks other s).u3 = (fun i j => other.u3 i (Fin.castLE h3 j)) ∧
    (reduce_ranks other s).core =
      (fun x y z => other.core (Fin.castLE h1 x) (Fin.castLE h2 y) (Fin.castLE h3 z)) := by
  refine ⟨?_, ?_, ?_, ?_⟩ <;> funext <;>
    simp [reduce_ranks, Fin.castLE, fun (j : Fin J1) => lt_of_lt_of_le j.isLt h1,
      fun (j : Fin J2) => lt_of_lt_of_le j.isLt h2,
      fun (j : Fin J3) => lt_of_lt_of_le j.isLt h3]

/-- A concrete rank-(2,2,2) source model over `1×1×1` extents. -/
def redOther : Tucker 2 2 2 1 1 1 where
  core := fun x y z => (x.val : ℚ) + 2 * y.val + 4 * z.val
  u1 := fun _ j => (j.val : ℚ) + 1
  u2 := fun _ j => (j.val : ℚ) + 3
  u3 := fun _ j => (j.val : ℚ) + 5

/-- Witness for C4 at a concrete rank reduction (2,2,2) → (1,1,1). -/
theorem reduce_ranks_exact_truncation_witness :
    (1 ≤ 2 ∧ 1 ≤ 2 ∧ 1 ≤ 2) ∧
    ((reduce_ranks redOther zeroModel).u1
        = (fun i j => redOther.u1 i (Fin.castLE (by norm_num) j)) ∧
     (reduce_ranks redOther zeroModel).u2
        = (fun i j => redOther.u2 i (Fin.castLE (by norm_num) j)) ∧
     (reduce_ranks redOther zeroModel).u3
        = (fun i j => redOther.u3 i (Fin.castLE (by norm_num) j)) ∧
     (reduce_ranks redOther zeroModel).core
        = (fun x y z => redOther.core (Fin.castLE (by norm_num) x)
            (Fin.castLE (by norm_num) y) (Fin.castLE (by norm_num) z))) :=
  ⟨⟨by norm_num, by norm_num, by norm_num⟩,
   reduce_ranks_exact_truncation redOther zeroModel (by norm_num) (by norm_num)
     (by norm_num)⟩

/-- A concrete rank-(1,1,1) source model over `2×2×2` extents whose basis
rows differ, so that averaging a row block changes the value: row 0 of each
basis is `4`, row 1 is `0`. -/
def avgOther : Tucker 1 1 1 2 2 2 where
  core := fun _ _ _ => 7
  u1 := fun i _ => if i.val = 0 then 4 else 0
  u2 := fun i _ => if i.val = 0 then 4 else 0
  u3 := fun i _ => if i.val = 0 then 4 else 0

/-- C3 (failing-input evaluation): subsampling `avgOther` on average with
factor 2 down to `1×1×1` extents writes the averaged block `(4+0)/2 = 2` into
the mode-1 basis, but writes the unaveraged source row `4` into the mode-2
and mode-3 bases even though the averaged block there also equals `2`; the
core is copied unchanged.  This contradicts the claim that every mode's
written row is the block average. -/
theorem subsampling_on_average_unaveraged_rows_modes23 :
    (subsampling_on_average avgOther 2 zeroModel).u1 0 0
        = blockAverageRow avgOther.u1 2 0 0 ∧
    blockAverageRow avgOther.u1 2 0 0 = 2 ∧
    (subsampling_on_average avgOther 2 zeroModel).u2 0 0 = 4 ∧
    (subsampling_on_average avgOther 2 zeroModel).u3 0 0 = 4 ∧
    blockAverageRow avgOther.u2 2 0 0 = 2 ∧
    blockAverageRow avgOther.u3 2 0 0 = 2 ∧
    (subsampling_on_average avgOther 2 zeroModel).u2 0 0
        ≠ blockAverageRow avgOther.u2 2 0 0 ∧
    (subsampling_on_average avgOther 2 zeroModel).u3 0 0
        ≠ blockAverageRow avgOther.u3 2 0 0 ∧
    (subsampling_on_average avgOther 2 zeroModel).core = avgOther.core := by
  norm_num [subsampling_on_average, blockAverageRow, rowGet, avgOther, zeroModel,
    List.range_succ]

/-- C7 (failing-input evaluation): the boundary assertions of `subsampling`,
`subsampling_on_average` and `region_of_interest` compare only the first
target extent `I1` against all three source extents — they never read `I2` or
`I3` (visible in their argument lists).  With target extents `(2,3,2)` and
source extents `(2,2,2)` every assertion passes although the spec's per-mode
precondition `I2 ≤ K2` is violated (`3 > 2`). -/
theorem cross_transform_asserts_only_check_first_extent :
    subsamplingAsserts 2 2 2 2 = true ∧
    subsamplingOnAverageAsserts 2 2 2 2 = true ∧
    regionOfInterestAsserts 2 2 2 2 0 1 0 1 0 1 = true ∧
    specExtentPrecondition 2 3 2 2 2 2 = false := by
  refine ⟨?_, ?_, ?_, ?_⟩ <;> rfl

/-- An oracle assignment at all-`1` shapes whose full-data SVDs succeed (and
overwrite the input with itself), whose in-loop SVDs fail, and whose norm is
the absolute value of the single entry. -/
def exOracle : Oracles 1 1 1 1 1 1 where
  svd1 := some
  svd2 := some
  svd3 := some
  svd1p := fun _ => none
  svd2p := fun _ => none
  svd3p := fun _ => none
  pinv1 := id
  pinv2 := id
  pinv3 := id
  fnorm := fun t => |t 0 0 0|

/-- The all-ones `1×1×1` data array. -/
def exData : T3 1 1 1 := fun _ _ _ => 1

/-- The all-ones `1×1` matrix. -/
def exU : Mat 1 1 := fun _ _ => 1

/-- C9: the state produced by `decomposition(data)` does not depend on the
model's pre-call basis matrices (`hosvd` overwrites all three before any read
of them), but it does depend on the pre-call core: the first reconstruction
inside `hoii` combines the fresh HOSVD bases with the stored core, and its
Frobenius norm seeds the convergence test.  Two models identical except for
their pre-call cores can decompose the same data to different results: with
the concrete oracles above, a pre-call core of `0` makes the seed improvement
`1 > 0.1`, the loop body runs (zeroing every basis through the failing
in-loop SVDs), and the result differs from the pre-call core `1` run, where
the loop exits at once. -/
theorem decomposition_precall_state_dependence :
    (∀ (j1 j2 j3 i1 i2 i3 : ℕ) (O : Oracles j1 j2 j3 i1 i2 i3)
       (data : T3 i1 i2 i3) (c : T3 j1 j2 j3)
       (b1 b1' : Mat i1 j1) (b2 b2' : Mat i2 j2) (b3 b3' : Mat i3 j3),
       decomposition O data { core := c, u1 := b1, u2 := b2, u3 := b3 } =
       decomposition O data { core := c, u1 := b1', u2 := b2', u3 := b3' }) ∧
    decomposition exOracle exData { core := t3Zero, u1 := exU, u2 := exU, u3 := exU } ≠
    decomposition exOracle exData { core := exData, u1 := exU, u2 := exU, u3 := exU } := by
  constructor
  · intro j1 j2 j3 i1 i2 i3 O data c b1 b1' b2 b2' b3 b3'
    rfl
  · intro h
    have h0 : (decomposition exOracle exData
        { core := t3Zero, u1 := exU, u2 := exU, u3 := exU }).u1 0 0 = 0 := by
      norm_num [decomposition, tucker_als, hoii, hoiiAux, hosvd, hoiiLoop, hoiiBody,
        reconstruction, fullTensor3MatrixMultiplication, mode1Product, mode2Product,
        mode3Product, hosvd_mode1, hosvd_mode2, hosvd_mode3, getSubMatrix,
        lateralMatricization, frontalMatricization, horizontalMatricization,
        optimize_mode1, optimize_mode2, optimize_mode3, derive_core_orthogonal_bases,
        transposeM, exOracle, exData, exU, t3Zero, matZero, minImprovement,
        maxIterations, Fin.sum_univ_one]
    have h1 : (decomposition exOracle exData
        { core := exData, u1 := exU, u2 := exU, u3 := exU }).u1 0 0 = 1 := by
      norm_num [decomposition, tucker_als, hoii, hoiiAux, hosvd, hoiiLoop, hoiiBody,
        reconstruction, fullTensor3MatrixMultiplication, mode1Product, mode2Product,
        mode3Product, hosvd_mode1, hosvd_mode2, hosvd_mode3, getSubMatrix,
        lateralMatricization, frontalMatricization, horizontalMatricization,
        optimize_mode1, optimize_mode2, optimize_mode3, derive_core_orthogonal_bases,
        transposeM, exOracle, exData, exU, t3Zero, matZero, minImprovement,
        maxIterations, Fin.sum_univ_one]
    rw [h] at h0
    rw [h1] at h0
    exact one_ne_zero h0

/-- A 1-mode product with an all-zero tensor is all-zero. -/
theorem mode1Product_zero_left {a b c r : ℕ} (u : Mat r a) :
    mode1Product (t3Zero : T3 a b c) u = t3Zero := by
  funext i j k; simp [mode1Product, t3Zero]

/-- A 2-mode product with an all-zero tensor is all-zero. -/
theorem mode2Product_zero_left {a b c r : ℕ} (u : Mat r b) :
    mode2Product (t3Zero : T3 a b c) u = t3Zero := by
  funext i j k; simp [mode2Product, t3Zero]

/-- A 3-mode product with an all-zero tensor is all-zero. -/
theorem mode3Product_zero_left {a b c r : ℕ} (u : Mat r c) :
    mode3Product (t3Zero : T3 a b c) u = t3Zero := by
  funext i j k; simp [mode3Product, t3Zero]

/-- A 1-mode product with an all-zero matrix is all-zero. -/
theorem mode1Product_zero_right {a b c r : ℕ} (t : T3 a b c) :
    mode1Product t (matZero : Mat r a) = t3Zero := by
  funext i j k; simp [mode1Product, matZero, t3Zero]

/-- Reconstructing through an all-zero mode-1 basis yields the zero array. -/
theorem fullMul_zero_u1 {j1 j2 j3 i1 i2 i3 : ℕ} (core : T3 j1 j2 j3)
    (U2 : Mat i2 j2) (U3 : Mat i3 j3) :
    fullTensor3MatrixMultiplication core (matZero : Mat i1 j1) U2 U3 = t3Zero := by
  simp [fullTensor3MatrixMultiplication, mode1Product_zero_right,
    mode2Product_zero_left, mode3Product_zero_left]

/-- Projecting the all-zero array by any three matrices yields the zero
array. -/
theorem fullMul_zero_data {j1 j2 j3 i1 i2 i3 : ℕ}
    (U1 : Mat i1 j1) (U2 : Mat i2 j2) (U3 : Mat i3 j3) :
    fullTensor3MatrixMultiplication (t3Zero : T3 j1 j2 j3) U1 U2 U3 = t3Zero := by
  simp [fullTensor3MatrixMultiplication, mode1Product_zero_left,
    mode2Product_zero_left, mode3Product_zero_left]

/-- C8: decomposing the all-zero data array — with the SVD collaborator
failing on the zero matricizations per its contract and the Frobenius norm of
the zero array being `0` — terminates with every basis equal to the zero
matrix and an all-zero core, and the `hoii` loop body runs zero times because
the initial improvement `0 - 0 = 0` is at most `0.1`. -/
theorem decomposition_zero_data_zero_result (O : Oracles J1 J2 J3 I1 I2 I3)
    (s : Tucker J1 J2 J3 I1 I2 I3)
    (h1 : O.svd1 matZero = none) (h2 : O.svd2 matZero = none)
    (h3 : O.svd3 matZero = none) (hf : O.fnorm t3Zero = 0) :
    decomposition O t3Zero s =
      { core := t3Zero, u1 := matZero, u2 := matZero, u3 := matZero } ∧
    hoiiIterations O t3Zero s = 0 := by
  have hl : lateralMatricization (t3Zero : T3 I1 I2 I3) = matZero := rfl
  have hfr : frontalMatricization (t3Zero : T3 I1 I2 I3) = matZero := rfl
  have hh : horizontalMatricization (t3Zero : T3 I1 I2 I3) = matZero := rfl
  have eH : hosvd O t3Zero s = { s with u1 := matZero, u2 := matZero, u3 := matZero } := by
    simp [hosvd, hosvd_mode1, hosvd_mode2, hosvd_mode3, hl, hfr, hh, h1, h2, h3]
  have eR : reconstruction
      ({ s with u1 := matZero, u2 := matZero, u3 := matZero } :
        Tucker J1 J2 J3 I1 I2 I3) = t3Zero := by
    simp [reconstruction, fullMul_zero_u1]
  have eAux : hoiiAux O t3Zero s =
      ({ core := t3Zero, u1 := matZero, u2 := matZero, u3 := matZero }, 0) := by
    unfold hoiiAux
    rw [eH]
    simp only [eR, hf, maxIterations, sub_self]
    rw [show hoiiLoop O t3Zero 3 0 0
        ({ s with u1 := matZero, u2 := matZero, u3 := matZero }) =
        ({ s with u1 := matZero, u2 := matZero, u3 := matZero }, 0) by
      norm_num [hoiiLoop, minImprovement]]
    simp [derive_core_orthogonal_bases, fullMul_zero_data]
  constructor
  · show tucker_als O t3Zero s = _
    unfold tucker_als hoii
    rw [eAux]
    simp [derive_core_orthogonal_bases, fullMul_zero_data]
  · show (hoiiAux O t3Zero s).2 = 0
    rw [eAux]

/-- Witness for C8: the trivial oracle fails on every SVD call and assigns
norm `0` everywhere. -/
theorem decomposition_zero_data_zero_result_witness :
    decomposition trivOracle t3Zero zeroModel =
      { core := t3Zero, u1 := matZero, u2 := matZero, u3 := matZero } ∧
    hoiiIterations trivOracle t3Zero zeroModel = 0 :=
  decomposition_zero_data_zero_result trivOracle zeroModel rfl rfl rfl rfl

/-- A column-major position `k * w + q` with `k < n` and `q < w` lies inside
an `n`-chunk list of chunk width `w`. -/
theorem chunk_lt {w : ℕ} (k q n : ℕ) (hk : k < n) (hq : q < w) :
    k * w + q < n * w := by
  calc k * w + q < k * w + w := by omega
    _ = (k + 1) * w := by ring
    _ ≤ n * w := Nat.mul_le_mul_right w hk

theorem matToList_length {r c : ℕ} (m : Mat r c) :
    (matToList m).length = c * r := by
  simp [matToList]

theorem t3ToList_length {a b c : ℕ} (t : T3 a b c) :
    (t3ToList t).length = c * (b * a) := by
  simp [t3ToList]

/-- Reading the flat column-major list of a matrix at position
`column * rows + row` recovers the entry. -/
theorem matToList_getD {r c : ℕ} (m : Mat r c) (i : Fin r) (j : Fin c) :
    (matToList m).getD (j.val * r + i.val) 0 = m i j := by
  have hidx : j.val * r + i.val < c * r := chunk_lt j.val i.val c j.isLt i.isLt
  have hlen : j.val * r + i.val < (matToList m).length := by
    rw [matToList_length]; exact hidx
  rw [List.getD_eq_getElem?_getD, List.getElem?_eq_getElem hlen]
  simp only [matToList, List.getElem_map, List.getElem_range, Option.getD_some]
  have hmod : (j.val * r + i.val) % r = i.val := by
    rw [Nat.mul_comm j.val r, Nat.mul_add_mod, Nat.mod_eq_of_lt i.isLt]
  have hdiv : (j.val * r + i.val) / r = j.val := by
    rw [Nat.mul_comm j.val r, Nat.mul_add_div i.pos, Nat.div_eq_of_lt i.isLt,
      Nat.add_zero]
  rw [hmod, hdiv, matGetD, dif_pos ⟨i.isLt, j.isLt⟩]

/-- Reading the flat natural-order list of a tensor3 at position
`slice * (b·a) + (column · a + row)` recovers the entry. -/
theorem t3ToList_getD {a b c : ℕ} (t : T3 a b c) (x : Fin a) (y : Fin b)
    (z : Fin c) :
    (t3ToList t).getD (z.val * (b * a) + (y.val * a + x.val)) 0 = t x y z := by
  have hq : y.val * a + x.val < b * a := chunk_lt y.val x.val b y.isLt x.isLt
  have hidx : z.val * (b * a) + (y.val * a + x.val) < c * (b * a) :=
    chunk_lt z.val (y.val * a + x.val) c z.isLt hq
  have hlen : z.val * (b * a) + (y.val * a + x.val) < (t3ToList t).length := by
    rw [t3ToList_length]; exact hidx
  rw [List.getD_eq_getElem?_getD, List.getElem?_eq_getElem hlen]
  simp only [t3ToList, List.getElem_map, List.getElem_range, Option.getD_some]
  have hba : 0 < b * a := by omega
  have hmodba : (z.val * (b * a) + (y.val * a + x.val)) % (b * a) =
      y.val * a + x.val := by
    rw [Nat.mul_comm z.val (b * a), Nat.mul_add_mod, Nat.mod_eq_of_lt hq]
  have hdivba : (z.val * (b * a) + (y.val * a + x.val)) / (b * a) = z.val := by
    rw [Nat.mul_comm z.val (b * a), Nat.mul_add_div hba, Nat.div_eq_of_lt hq,
      Nat.add_zero]
  have hmoda : (y.val * a + x.val) % a = x.val := by
    rw [Nat.mul_comm y.val a, Nat.mul_add_mod, Nat.mod_eq_of_lt x.isLt]
  have hdiva : (y.val * a + x.val) / a = y.val := by
    rw [Nat.mul_comm y.val a, Nat.mul_add_div x.pos, Nat.div_eq_of_lt x.isLt,
      Nat.add_zero]
  rw [hmodba, hdivba, hmoda, hdiva, t3GetD, dif_pos ⟨x.isLt, y.isLt, z.isLt⟩]

/-- `getD` past a left chunk of an append reads the right chunk. -/
theorem getD_append_offset (l1 l2 : List ℚ) (n : ℕ) :
    (l1 ++ l2).getD (l1.length + n) 0 = l2.getD n 0 := by
  rw [List.getD_append_right l1 l2 0 (l1.length + n) (Nat.le_add_right _ _)]
  simp

/-- `getD` inside the left chunk of an append reads the left chunk. -/
theorem getD_append_lt (l1 l2 : List ℚ) (n : ℕ) (h : n < l1.length) :
    (l1 ++ l2).getD n 0 = l1.getD n 0 :=
  List.getD_append l1 l2 0 n h

/-- C5: `export_to` emits, in order, all of basis 1's elements, then basis
2's, then basis 3's, then the core's, each in its container's natural element
order; and `import_from`, applied on a freshly constructed model of identical
shape to the sequence exported into an initially empty vector, reproduces the
original model's core and all three bases exactly. -/
theorem export_import_round_trip (m fresh : Tucker J1 J2 J3 I1 I2 I3) :
    export_to m [] =
      matToList m.u1 ++ matToList m.u2 ++ matToList m.u3 ++ t3ToList m.core ∧
    import_from fresh (export_to m []) = some m := by
  have e : export_to m [] =
      matToList m.u1 ++ matToList m.u2 ++ matToList m.u3 ++ t3ToList m.core := by
    simp [export_to]
  refine ⟨e, ?_⟩
  rw [e]
  set l1 := matToList m.u1 with hl1
  set l2 := matToList m.u2 with hl2
  set l3 := matToList m.u3 with hl3
  set lc := t3ToList m.core with hlc
  have len1 : l1.length = J1 * I1 := matToList_length m.u1
  have len2 : l2.length = J2 * I2 := matToList_length m.u2
  have len3 : l3.length = J3 * I3 := matToList_length m.u3
  have lenc : lc.length = J3 * (J2 * J1) := t3ToList_length m.core
  have hassoc : l1 ++ l2 ++ l3 ++ lc = l1 ++ (l2 ++ (l3 ++ lc)) := by
    simp [List.append_assoc]
  have hlen : exportLength J1 J2 J3 I1 I2 I3 ≤ (l1 ++ l2 ++ l3 ++ lc).length := by
    simp only [exportLength, List.length_append, len1, len2, len3, lenc]
    omega
  rw [import_from, if_pos hlen]
  congr 1
  apply Tucker.ext
  · funext x y z
    show (l1 ++ l2 ++ l3 ++ lc).getD
      (J1 * I1 + J2 * I2 + J3 * I3 + (z.val * (J2 * J1) + (y.val * J1 + x.val))) 0
      = m.core x y z
    rw [hassoc, ← len1, ← len2, ← len3, Nat.add_assoc, Nat.add_assoc,
      getD_append_offset, getD_append_offset, getD_append_offset]
    exact t3ToList_getD m.core x y z
  · funext i j
    show (l1 ++ l2 ++ l3 ++ lc).getD (j.val * I1 + i.val) 0 = m.u1 i j
    rw [hassoc, getD_append_lt _ _ _ (by
      rw [len1]; exact chunk_lt j.val i.val J1 j.isLt i.isLt)]
    exact matToList_getD m.u1 i j
  · funext i j
    show (l1 ++ l2 ++ l3 ++ lc).getD (J1 * I1 + (j.val * I2 + i.val)) 0 = m.u2 i j
    rw [hassoc, ← len1, getD_append_offset, getD_append_lt _ _ _ (by
      rw [len2]; exact chunk_lt j.val i.val J2 j.isLt i.isLt)]
    exact matToList_getD m.u2 i j
  · funext i j
    show (l1 ++ l2 ++ l3 ++ lc).getD
      (J1 * I1 + J2 * I2 + (j.val * I3 + i.val)) 0 = m.u3 i j
    rw [hassoc, ← len1, ← len2, Nat.add_assoc, getD_append_offset,
      getD_append_offset, getD_append_lt _ _ _ (by
        rw [len3]; exact chunk_lt j.val i.val J3 j.isLt i.isLt)]
    exact matToList_getD m.u3 i j

/-- C10: `export_to` appends to the supplied vector without clearing it —
the result is the prior contents followed by exactly
`I1·J1 + I2·J2 + I3·J3 + J1·J2·J3` exported elements — and the model itself
is unchanged (`export_to` is a const member, embodied by
`exportToState`). -/
theorem export_to_appends_and_preserves_model
    (m : Tucker J1 J2 J3 I1 I2 I3) (v : List ℚ) :
    export_to m v = v ++ export_to m [] ∧
    (export_to m []).length = I1 * J1 + I2 * J2 + I3 * J3 + J1 * J2 * J3 ∧
    exportToState m v = (m, export_to m v) := by
  refine ⟨by simp [export_to], ?_, rfl⟩
  simp only [export_to, List.nil_append, List.length_append, matToList_length,
    t3ToList_length]
  ring

end Vmml
